import Mathlib

/-!
Shallow embedding of the `cachekv` catalog / key-lifecycle subsystem
(`db.go`, `types.go`).  Byte slices are lists of naturals, the badger
engine is modelled as a store of database files (encryption key plus
key/value contents) indexed by path, and the package-level globals
(`metaStorage`, `keyStorage`, `fxConfig`, `StorePath`) live in a `World`
record that every operation threads explicitly.  Go functions returning
`(value, error)` become functions `World → Except Err α × World`: the
world component survives an error return exactly as Go globals do.
Randomness (`crypto/rand` via `rand.Int`, always < 62 here) is an oracle
`Nat → Fin 62` consumed at an explicit cursor, and engine-level failures
of the streaming export and of write-batch flushes, which are external
nondeterminism of badger, are injected through explicit fault flags.
-/

namespace Cachekv

abbrev Bytes := List Nat

/-- Go `Config` struct from `types.go`. -/
structure Config where
  storePath : String
  secureNewDb : Bool
  metaStore : String
  metaFile : String
deriving DecidableEq, Repr

/-- Go `DbObject` struct from `types.go` (one descriptor per logical database). -/
structure DbObject where
  dbPath : String
  dbFile : String
  secure : Bool
  created : Nat
  active : Bool
  lastRotated : Nat
  deleted : Nat
deriving DecidableEq, Repr

/-- Go `EventType` enumeration from `types.go`. -/
inductive EventType where
  | write | read | create | delete | update | configChange
deriving DecidableEq, Repr

/-- Go `Event` struct from `types.go`. -/
structure Event where
  type : EventType
  comment : String
  tstamp : Nat
deriving DecidableEq, Repr

/-- Errors surfaced by the embedded operations.  `dbRotating` is
`errors.New(errDbRotating)`, `rotateFlagRaised` is the distinct
`"rotate flag already raised"` error of `copyMetas`, `dbInactive name`
is `errors.New(dbName + " - " + errDbInactive)`, `notFound` is badger's
`ErrKeyNotFound`, `keyMismatch` is the engine's open failure on a wrong
encryption key, `fileNotFound` an `os.IsNotExist` stat failure,
`badB64` a base64 decode failure, `unmarshal` a JSON unmarshal failure,
and `flushFail` a write-batch flush failure reported by the engine. -/
inductive Err where
  | dbRotating
  | rotateFlagRaised
  | dbInactive (name : String)
  | notFound
  | keyMismatch
  | fileNotFound
  | badB64
  | unmarshal
  | flushFail
deriving DecidableEq, Repr

/-- A value stored in a badger database.  The Go code stores raw byte
slices; catalog records are JSON-marshalled structs.  Marshalling is
modelled injectively by constructor tagging and unmarshalling by the
(partial) projection back out of the tag. -/
inductive Val where
  | bytes (bs : Bytes)
  | dbObj (o : DbObject)
  | config (c : Config)
  | event (e : Event)
deriving DecidableEq, Repr

instance {ε α : Type} [DecidableEq ε] [DecidableEq α] : DecidableEq (Except ε α) := fun a b =>
  match a, b with
  | .error x, .error y =>
    if h : x = y then .isTrue (by rw [h]) else .isFalse (by simp [h])
  | .error _, .ok _ => .isFalse (by simp)
  | .ok _, .error _ => .isFalse (by simp)
  | .ok x, .ok y =>
    if h : x = y then .isTrue (by rw [h]) else .isFalse (by simp [h])

/-- Contents of one open-addressable badger database: association list
from string keys to stored values. -/
abbrev Kv := List (String × Val)

def kvGet (k : String) : Kv → Option Val
  | [] => none
  | (k2, v) :: rest => if k2 = k then some v else kvGet k rest

def kvSet (k : String) (v : Val) : Kv → Kv
  | [] => [(k, v)]
  | (k2, v2) :: rest => if k2 = k then (k, v) :: rest else (k2, v2) :: kvSet k v rest

def kvDel (k : String) : Kv → Kv
  | [] => []
  | (k2, v2) :: rest => if k2 = k then kvDel k rest else (k2, v2) :: kvDel k rest

/-- One on-disk badger database: its encryption key (`[]` when the
database is unsecured) and its contents. -/
structure DbFile where
  enc : Bytes
  kv : Kv
deriving DecidableEq, Repr

/-- The store directory: association list from paths to database files. -/
abbrev FileSys := List (String × DbFile)

def fsGet (p : String) : FileSys → Option DbFile
  | [] => none
  | (q, f) :: rest => if q = p then some f else fsGet p rest

def fsSet (p : String) (f : DbFile) : FileSys → FileSys
  | [] => [(p, f)]
  | (q, g) :: rest => if q = p then (p, f) :: rest else (q, g) :: fsSet p f rest

/-- Go `Storage` struct (`types.go`): the fields of the package globals
`metaStorage` / `keyStorage`.  The `db` handle is not carried: handles
are identified with paths in this embedding. -/
structure Storage where
  path : String
  file : String
  key : Bytes
  rotatingKey : Bool
deriving Repr

/-- The entire mutable state visible to `db.go`: the file system, the
package-level globals, a monotone clock for `time.Now().UnixMilli()`,
the randomness oracle with its cursor (`rand.Int(rand.Reader, 62)`
yields a value below 62), and fault-injection flags for the two
engine-level failure sources of rotation: `exportFails` makes the
streaming export (`stream.Orchestrate`) return an error after having
delivered only the first `exportCut` entries, and `flushFails` makes a
write-batch `Flush` fail after applying only the first `flushCut`
staged entries. -/
structure World where
  files : FileSys
  metaStorage : Storage
  keyStorage : Storage
  fxConfig : Config
  storePath : String
  clock : Nat
  randIdx : Nat
  randFun : Nat → Fin 62
  exportFails : Bool
  exportCut : Nat
  flushFails : Bool
  flushCut : Nat

/-- Constants from `db.go` / `types.go`. -/
def keyLength : Nat := 32
def fileKey : Nat := 8
def fileIdLength : Nat := 16
def prefixMetaKey : String := "metakey:fxstorage"
def prefixMetaDb : String := "fxstorage_db:"
def prefixMetaEvent : String := "fxstorage_event:"
def prefixMetaConfig : String := "fxstorage_config"
def lockDb : String := "lock.db"

/-- Go `path.Join` restricted to the property the claims use (it forms a
path distinct for distinct components; cleaning is immaterial here). -/
def pathJoin (a b : String) : String := a ++ "/" ++ b

def bytesToStr (bs : Bytes) : String := String.mk (bs.map Char.ofNat)

/-- The 62-character alphabet of `randomValues`. -/
def alphaNum : Bytes :=
  "abcdefghijklmnopqrstuvwxyz0123456789ABCDEFGHIJKLMNOPQRSTUVWXYZ".toList.map Char.toNat

/-- The byte list produced by `n` oracle draws starting at cursor
`idx`, each indexing the alphanumeric alphabet. -/
def randomBytesAt (rf : Nat → Fin 62) (idx n : Nat) : Bytes :=
  (List.range n).map (fun i => alphaNum.getD (rf (idx + i)).val 0)

/-- The byte list produced by one `randomValues(n)` call at the current
oracle cursor. -/
def randomBytes (n : Nat) (w : World) : Bytes :=
  randomBytesAt w.randFun w.randIdx n

/-- Go `randomValues` (`db.go`): draws `n` alphanumeric bytes; the
returned error is literally `nil` on every path. -/
def randomValues (n : Nat) (w : World) : (Bytes × Option Err) × World :=
  ((randomBytes n w, none), { w with randIdx := w.randIdx + n })

/-- Go `b64Encode` output alphabet char for one sextet (standard base64
alphabet, `'='` = 61 is the pad byte and is never produced here). -/
def b64Byte (s : Nat) : Nat :=
  if s < 26 then 65 + s
  else if s < 52 then 97 + (s - 26)
  else if s < 62 then 48 + (s - 52)
  else if s = 62 then 43
  else 47

/-- Decode one base64 alphabet byte back to its sextet. -/
def b64Sextet (c : Nat) : Except Err Nat :=
  if 65 ≤ c ∧ c ≤ 90 then .ok (c - 65)
  else if 97 ≤ c ∧ c ≤ 122 then .ok (c - 71)
  else if 48 ≤ c ∧ c ≤ 57 then .ok (c + 4)
  else if c = 43 then .ok 62
  else if c = 47 then .ok 63
  else .error .badB64

/-- Go `b64Encode` (`base64.StdEncoding.EncodeToString`), as the ASCII
byte list of the encoded string. -/
def b64Encode : Bytes → Bytes
  | [] => []
  | [a] => [b64Byte (a / 4), b64Byte (a % 4 * 16), 61, 61]
  | [a, b] => [b64Byte (a / 4), b64Byte (a % 4 * 16 + b / 16), b64Byte (b % 16 * 4), 61]
  | a :: b :: c :: rest =>
      b64Byte (a / 4) :: b64Byte (a % 4 * 16 + b / 16) ::
      b64Byte (b % 16 * 4 + c / 64) :: b64Byte (c % 64) :: b64Encode rest

/-- Go `b64Decode` (`base64.StdEncoding.DecodeString`). -/
def b64Decode : Bytes → Except Err Bytes
  | [] => .ok []
  | c0 :: c1 :: c2 :: c3 :: rest => do
      let s0 ← b64Sextet c0
      let s1 ← b64Sextet c1
      if c2 = 61 ∧ c3 = 61 ∧ rest = [] then
        .ok [s0 * 4 + s1 / 16]
      else if c3 = 61 ∧ rest = [] then do
        let s2 ← b64Sextet c2
        .ok [s0 * 4 + s1 / 16, s1 % 16 * 16 + s2 / 4]
      else do
        let s2 ← b64Sextet c2
        let s3 ← b64Sextet c3
        let tail ← b64Decode rest
        .ok ((s0 * 4 + s1 / 16) :: (s1 % 16 * 16 + s2 / 4) :: (s2 % 4 * 64 + s3) :: tail)
  | _ => .error .badB64

/-! ### Engine binding -/

/-- Go `OpenDatabase` (`db.go`): badger open with an encryption key.  On
a fresh path it creates the database with that key; on an existing path
the key must match or badger fails the open.  The returned handle is
identified with the path. -/
def OpenDatabase (p : String) (key : Bytes) (w : World) : Except Err String × World :=
  match fsGet p w.files with
  | some f => if f.enc = key then (.ok p, w) else (.error .keyMismatch, w)
  | none => (.ok p, { w with files := fsSet p ⟨key, []⟩ w.files })

/-- Go `openUnsecuredDb` (`db.go`): badger open without encryption. -/
def openUnsecuredDb (p : String) (w : World) : Except Err String × World :=
  match fsGet p w.files with
  | some f => if f.enc = [] then (.ok p, w) else (.error .keyMismatch, w)
  | none => (.ok p, { w with files := fsSet p ⟨[], []⟩ w.files })

/-- Go `CloseDatabase` / deferred `db.Close()`: releases the handle; in
this embedding a no-op that always succeeds. -/
def CloseDatabase (_p : String) (w : World) : Except Err Unit × World :=
  (.ok (), w)

/-- Go `setDbEntry` (`db.go`): `db.Update(txn.Set(key, value))`. -/
def setDbEntry (key : String) (v : Val) (p : String) (w : World) : Except Err Unit × World :=
  match fsGet p w.files with
  | some f => (.ok (), { w with files := fsSet p ⟨f.enc, kvSet key v f.kv⟩ w.files })
  | none => (.error .fileNotFound, w)

/-- Go `getDbEntry` (`db.go`): `db.View(txn.Get(key))`; badger returns
`ErrKeyNotFound` for an absent key. -/
def getDbEntry (key : String) (p : String) (w : World) : Except Err Val × World :=
  match fsGet p w.files with
  | some f =>
      match kvGet key f.kv with
      | some v => (.ok v, w)
      | none => (.error .notFound, w)
  | none => (.error .fileNotFound, w)

/-- The `db.Update(txn.Delete(key))` body of `RemoveEntry`; badger's
delete succeeds whether or not the key is present. -/
def delDbEntry (key : String) (p : String) (w : World) : Except Err Unit × World :=
  match fsGet p w.files with
  | some f => (.ok (), { w with files := fsSet p ⟨f.enc, kvDel key f.kv⟩ w.files })
  | none => (.error .fileNotFound, w)

/-- Go `batchInsertGeneric` (`db.go`): stage every entry in a write
batch and flush once.  When the engine's flush fails (injected fault
`flushFails`) a prefix of the staged entries may already be applied —
the spec's `PartialBatchFailure`. -/
def batchInsertGeneric (values : Kv) (p : String) (w : World) : Except Err Unit × World :=
  match fsGet p w.files with
  | some f =>
      if w.flushFails then
        (.error .flushFail,
          { w with files :=
              fsSet p ⟨f.enc, (values.take w.flushCut).foldl (fun acc e => kvSet e.1 e.2 acc) f.kv⟩ w.files })
      else
        (.ok (),
          { w with files :=
              fsSet p ⟨f.enc, values.foldl (fun acc e => kvSet e.1 e.2 acc) f.kv⟩ w.files })
  | none => (.error .fileNotFound, w)

/-! ### Catalog operations -/

def metaPath (w : World) : String := pathJoin w.metaStorage.path w.metaStorage.file

def keyringPath (w : World) : String := pathJoin w.keyStorage.path w.keyStorage.file

/-- Go `writeMetaEntry` (`db.go`). -/
def writeMetaEntry (key : String) (v : Val) (w : World) : Except Err Unit × World :=
  if w.metaStorage.rotatingKey then (.error .dbRotating, w)
  else
    match OpenDatabase (metaPath w) w.metaStorage.key w with
    | (.error e, w1) => (.error e, w1)
    | (.ok p, w1) => setDbEntry key v p w1

/-- Go `getMetaEntry` (`db.go`). -/
def getMetaEntry (key : String) (w : World) : Except Err Val × World :=
  if w.metaStorage.rotatingKey then (.error .dbRotating, w)
  else
    match OpenDatabase (metaPath w) w.metaStorage.key w with
    | (.error e, w1) => (.error e, w1)
    | (.ok p, w1) => getDbEntry key p w1

/-- Go `writeMetaEvent` (`db.go`). -/
def writeMetaEvent (t : EventType) (comment : String) (w : World) : Except Err Unit × World :=
  let now := w.clock
  let w1 := { w with clock := w.clock + 1 }
  writeMetaEntry (prefixMetaEvent ++ toString now) (.event ⟨t, comment, now⟩) w1

/-- Go `WriteMetaConfig` (`db.go`). -/
def WriteMetaConfig (cfg : Config) (w : World) : Except Err Unit × World :=
  match writeMetaEntry prefixMetaConfig (.config cfg) w with
  | (.error e, w1) => (.error e, w1)
  | (.ok _, w1) => writeMetaEvent .configChange "Updating config" w1

/-- Go `writeMetaDbObject` (`db.go`). -/
def writeMetaDbObject (dbName : String) (o : DbObject) (isUpdate : Bool) (w : World) :
    Except Err Unit × World :=
  match writeMetaEntry (prefixMetaDb ++ dbName) (.dbObj o) w with
  | (.error e, w1) => (.error e, w1)
  | (.ok _, w1) =>
      if isUpdate then writeMetaEvent .update ("Updated db object: " ++ dbName) w1
      else writeMetaEvent .create ("Created db object: " ++ dbName) w1

/-- Go `getMetaDbObject` (`db.go`): read plus JSON unmarshal into a
`DbObject`. -/
def getMetaDbObject (dbName : String) (w : World) : Except Err DbObject × World :=
  match getMetaEntry (prefixMetaDb ++ dbName) w with
  | (.error e, w1) => (.error e, w1)
  | (.ok v, w1) =>
      match v with
      | .dbObj o => (.ok o, w1)
      | _ => (.error .unmarshal, w1)

/-- Go `WriteToKeyring` (`db.go`): the secret store is the `lock.db`
badger database addressed by the `keyStorage` global. -/
def WriteToKeyring (key : String) (v : Bytes) (w : World) : Except Err Unit × World :=
  if w.keyStorage.rotatingKey then (.error .dbRotating, w)
  else
    match OpenDatabase (keyringPath w) w.keyStorage.key w with
    | (.error e, w1) => (.error e, w1)
    | (.ok p, w1) => setDbEntry key (.bytes v) p w1

/-- Go `getFromKeyring` (`db.go`). -/
def getFromKeyring (key : String) (w : World) : Except Err Bytes × World :=
  if w.keyStorage.rotatingKey then (.error .dbRotating, w)
  else
    match OpenDatabase (keyringPath w) w.keyStorage.key w with
    | (.error e, w1) => (.error e, w1)
    | (.ok p, w1) =>
        match getDbEntry key p w1 with
        | (.error e, w2) => (.error e, w2)
        | (.ok v, w2) =>
            match v with
            | .bytes bs => (.ok bs, w2)
            | _ => (.error .unmarshal, w2)

/-- Unmarshal loop body of Go `listDatabases` (`db.go`): every record
under the db prefix must JSON-decode into a `DbObject`. -/
def decodeDbObjects : Kv → Except Err (List (String × DbObject))
  | [] => .ok []
  | (k, v) :: rest =>
      match v with
      | .dbObj o =>
          match decodeDbObjects rest with
          | .error e => .error e
          | .ok tail => .ok ((k, o) :: tail)
      | _ => .error .unmarshal

/-- Go `listDatabases` (`db.go`): prefix scan of the catalog returning
the full record keys mapped to decoded descriptors. -/
def listDatabases (w : World) : Except Err (List (String × DbObject)) × World :=
  if w.metaStorage.rotatingKey then (.error .dbRotating, w)
  else
    match OpenDatabase (metaPath w) w.metaStorage.key w with
    | (.error e, w1) => (.error e, w1)
    | (.ok p, w1) =>
        match fsGet p w1.files with
        | none => (.error .fileNotFound, w1)
        | some f =>
            (decodeDbObjects (f.kv.filter (fun e => e.1.startsWith prefixMetaDb)), w1)

/-- Go `ListDatabases` (`db.go`): prefix scan returning the record keys. -/
def ListDatabases (w : World) : Except Err (List String) × World :=
  if w.metaStorage.rotatingKey then (.error .dbRotating, w)
  else
    match OpenDatabase (metaPath w) w.metaStorage.key w with
    | (.error e, w1) => (.error e, w1)
    | (.ok p, w1) =>
        match fsGet p w1.files with
        | none => (.error .fileNotFound, w1)
        | some f =>
            (.ok ((f.kv.filter (fun e => e.1.startsWith prefixMetaDb)).map Prod.fst), w1)

/-- Go `metaBatchInsert` (`db.go`): write-batch insert into the catalog. -/
def metaBatchInsert (values : Kv) (w : World) : Except Err Unit × World :=
  if w.metaStorage.rotatingKey then (.error .dbRotating, w)
  else
    match OpenDatabase (metaPath w) w.metaStorage.key w with
    | (.error e, w1) => (.error e, w1)
    | (.ok p, w1) => batchInsertGeneric values p w1

/-- Go `ListConfigurations` (`db.go`). -/
def ListConfigurations (w : World) : Except Err Config × World :=
  if w.metaStorage.rotatingKey then (.error .dbRotating, w)
  else
    match getMetaEntry prefixMetaConfig w with
    | (.error e, w1) => (.error e, w1)
    | (.ok v, w1) =>
        match v with
        | .config c => (.ok c, w1)
        | _ => (.error .unmarshal, w1)

/-! ### Database lifecycle manager -/

/-- Go `getDbKey` (`db.go`): resolve a logical database's engine key;
for a secure descriptor via keyring fetch plus base64 decode, otherwise
`nil` (empty). -/
def getDbKey (dbName : String) (o : DbObject) (w : World) : Except Err Bytes × World :=
  if o.secure then
    match getFromKeyring (prefixMetaDb ++ dbName) w with
    | (.error e, w1) => (.error e, w1)
    | (.ok bDbKey, w1) =>
        match b64Decode bDbKey with
        | .error e => (.error e, w1)
        | .ok dbKey => (.ok dbKey, w1)
  else (.ok [], w)

/-- Common tail of Go `CreateDatabase` after the underlying database was
opened: persist the descriptor (with `Created = now`) and close the
handle. -/
def createDbFinish (dbName dbActualName : String) (secure : Bool) (db : String) (w : World) :
    Except Err Unit × World :=
  let dbObject : DbObject :=
    { dbPath := w.fxConfig.storePath, dbFile := dbActualName, secure := secure,
      created := w.clock, active := true, lastRotated := 0, deleted := 0 }
  let w1 := { w with clock := w.clock + 1 }
  match writeMetaDbObject dbName dbObject false w1 with
  | (.error e, w2) => (.error e, w2)
  | (.ok _, w2) => CloseDatabase db w2

/-- Go `CreateDatabase` (`db.go`). -/
def CreateDatabase (dbName : String) (secure : Bool) (w : World) : Except Err Unit × World :=
  match randomValues fileIdLength w with
  | ((dbId, _), w1) =>
    let dbActualName := dbName ++ "-" ++ bytesToStr dbId
    let dbPath := pathJoin w1.fxConfig.storePath dbActualName
    if secure then
      match randomValues keyLength w1 with
      | ((key, fErr), w2) =>
        match fErr with
        | some e => (.error e, w2)
        | none =>
          match OpenDatabase dbPath key w2 with
          | (.error e, w3) => (.error e, w3)
          | (.ok db, w3) =>
            match WriteToKeyring (prefixMetaDb ++ dbName) (b64Encode key) w3 with
            | (.error e, w4) => (.error e, w4)
            | (.ok _, w4) => createDbFinish dbName dbActualName secure db w4
    else
      match openUnsecuredDb dbPath w1 with
      | (.error e, w2) => (.error e, w2)
      | (.ok db, w2) => createDbFinish dbName dbActualName secure db w2

/-- Go `InsertEntry` (`db.go`). -/
def InsertEntry (dbName key : String) (value : Bytes) (w : World) : Except Err Unit × World :=
  match getMetaDbObject dbName w with
  | (.error e, w1) => (.error e, w1)
  | (.ok o, w1) =>
    if !o.active then (.error (.dbInactive dbName), w1)
    else
      match getDbKey dbName o w1 with
      | (.error e, w2) => (.error e, w2)
      | (.ok dbKey, w2) =>
        let dbPath := pathJoin o.dbPath o.dbFile
        match (if o.secure then OpenDatabase dbPath dbKey w2 else openUnsecuredDb dbPath w2) with
        | (.error e, w3) => (.error e, w3)
        | (.ok db, w3) =>
          match setDbEntry key (.bytes value) db w3 with
          | (.error e, w4) => (.error e, w4)
          | (.ok _, w4) => CloseDatabase db w4

/-- Go `UpdateEntry` (`db.go`): literally `return InsertEntry(dbName, key, value)`. -/
def UpdateEntry (dbName key : String) (value : Bytes) (w : World) : Except Err Unit × World :=
  InsertEntry dbName key value w

/-- Go `RemoveEntry` (`db.go`). -/
def RemoveEntry (dbName key : String) (w : World) : Except Err Unit × World :=
  match getMetaDbObject dbName w with
  | (.error e, w1) => (.error e, w1)
  | (.ok o, w1) =>
    if !o.active then (.error (.dbInactive dbName), w1)
    else
      match getDbKey dbName o w1 with
      | (.error e, w2) => (.error e, w2)
      | (.ok dbKey, w2) =>
        let dbPath := pathJoin o.dbPath o.dbFile
        match (if o.secure then OpenDatabase dbPath dbKey w2 else openUnsecuredDb dbPath w2) with
        | (.error e, w3) => (.error e, w3)
        | (.ok db, w3) =>
          match delDbEntry key db w3 with
          | (.error e, w4) => (.error e, w4)
          | (.ok _, w4) => CloseDatabase db w4

/-- Go `BatchInsert` (`db.go`). -/
def BatchInsert (dbName : String) (entries : List (String × Bytes)) (w : World) :
    Except Err Unit × World :=
  match getMetaDbObject dbName w with
  | (.error e, w1) => (.error e, w1)
  | (.ok o, w1) =>
    if !o.active then (.error (.dbInactive dbName), w1)
    else
      match getDbKey dbName o w1 with
      | (.error e, w2) => (.error e, w2)
      | (.ok dbKey, w2) =>
        let dbPath := pathJoin o.dbPath o.dbFile
        match (if o.secure then OpenDatabase dbPath dbKey w2 else openUnsecuredDb dbPath w2) with
        | (.error e, w3) => (.error e, w3)
        | (.ok db, w3) =>
          match batchInsertGeneric (entries.map (fun e => (e.1, Val.bytes e.2))) db w3 with
          | (.error e, w4) => (.error e, w4)
          | (.ok _, w4) => CloseDatabase db w4

/-- Go `GetEntry` (`db.go`). -/
def GetEntry (dbName key : String) (w : World) : Except Err Val × World :=
  match getMetaDbObject dbName w with
  | (.error e, w1) => (.error e, w1)
  | (.ok o, w1) =>
    if !o.active then (.error (.dbInactive dbName), w1)
    else
      match getDbKey dbName o w1 with
      | (.error e, w2) => (.error e, w2)
      | (.ok dbKey, w2) =>
        let dbPath := pathJoin o.dbPath o.dbFile
        match (if o.secure then OpenDatabase dbPath dbKey w2 else openUnsecuredDb dbPath w2) with
        | (.error e, w3) => (.error e, w3)
        | (.ok db, w3) =>
          match getDbEntry key db w3 with
          | (.error e, w4) => (.error e, w4)
          | (.ok v, w4) =>
            match CloseDatabase db w4 with
            | (.error e, w5) => (.error e, w5)
            | (.ok _, w5) => (.ok v, w5)

/-- The Go `Storage` value built by `GetStorageObject`; its `db` field
is `none` exactly when the Go code would hold a `nil` handle. -/
structure StorageObj where
  db : Option String
  path : String
  file : String
  key : Bytes
  rotatingKey : Bool
deriving DecidableEq, Repr

/-- Go `GetStorageObject` (`db.go`).  Note: the source assigns
`db, err := OpenDatabase(dbPath, b64Decoded)` and then returns
`storageObject, nil` without inspecting that `err`, so an engine open
failure yields a `nil`-handle object and a `nil` error; the embedding
reproduces that verbatim. -/
def GetStorageObject (dbName : String) (w : World) : Except Err StorageObj × World :=
  match getMetaDbObject dbName w with
  | (.error e, w1) => (.error e, w1)
  | (.ok o, w1) =>
    let dbPath := pathJoin o.dbPath o.dbFile
    match fsGet dbPath w1.files with
    | none => (.error .fileNotFound, w1)
    | some _ =>
      if o.secure && o.active then
        match getFromKeyring (prefixMetaDb ++ dbName) w1 with
        | (.error e, w2) => (.error e, w2)
        | (.ok dbKey, w2) =>
          match b64Decode dbKey with
          | .error e => (.error e, w2)
          | .ok b64Decoded =>
            match OpenDatabase dbPath b64Decoded w2 with
            | (.ok db, w3) => (.ok ⟨some db, o.dbPath, o.dbFile, dbKey, false⟩, w3)
            | (.error _, w3) => (.ok ⟨none, o.dbPath, o.dbFile, dbKey, false⟩, w3)
      else
        match OpenDatabase dbPath [] w1 with
        | (.ok db, w2) => (.ok ⟨some db, o.dbPath, o.dbFile, [], false⟩, w2)
        | (.error _, w2) => (.ok ⟨none, o.dbPath, o.dbFile, [], false⟩, w2)

/-! ### Key rotation engine -/

/-- Go `copyMetas` (`db.go`): the rotation protocol.  The streaming
export accumulates the old catalog's records into `values`
(`stream.ChooseKey` admits every key since `stream.Prefix` is empty);
the error returned by `stream.Orchestrate` is assigned to `err` and
immediately overwritten by the result of `batchInsertGeneric`, and
`metaStorage.rotatingKey` is reset on the straight-line path regardless
of either result — both translated verbatim. -/
def copyMetas (w : World) : Except Err (String × Bytes) × World :=
  if w.metaStorage.rotatingKey then (.error .rotateFlagRaised, w)
  else
    match OpenDatabase (metaPath w) w.metaStorage.key w with
    | (.error e, w1) => (.error e, w1)
    | (.ok oldDb, w1) =>
      let w2 := { w1 with metaStorage := { w1.metaStorage with rotatingKey := true } }
      match randomValues keyLength w2 with
      | ((newMetaKey, _), w3) =>
        match randomValues 10 w3 with
        | ((metaFileRandom, _), w4) =>
          let newMetaFile := "meta-" ++ bytesToStr metaFileRandom
          match OpenDatabase (w4.storePath ++ newMetaFile) newMetaKey w4 with
          | (.error e, w5) => (.error e, w5)
          | (.ok newDb, w5) =>
            let oldKv :=
              match fsGet oldDb w5.files with
              | some f => f.kv
              | none => []
            let values := if w5.exportFails then oldKv.take w5.exportCut else oldKv
            match batchInsertGeneric values newDb w5 with
            | (res, w6) =>
              let w7 := { w6 with metaStorage := { w6.metaStorage with rotatingKey := false } }
              match res with
              | .ok _ => (.ok (newMetaFile, newMetaKey), w7)
              | .error e => (.error e, w7)

/-! ### State predicates and derived-state helpers -/

/-- The world after rewriting the catalog's contents in place. -/
def wSetMeta (w : World) (kv : Kv) : World :=
  { w with files := fsSet (metaPath w) ⟨w.metaStorage.key, kv⟩ w.files }

/-- The catalog is readable: rotation flag down and the catalog file on
disk under the in-memory (path, key) pair, with contents `mkv`. -/
def MetaReady (w : World) (mkv : Kv) : Prop :=
  w.metaStorage.rotatingKey = false ∧
  fsGet (metaPath w) w.files = some ⟨w.metaStorage.key, mkv⟩

/-- The world after rewriting the keyring's contents in place. -/
def wSetKeyring (w : World) (kv : Kv) : World :=
  { w with files := fsSet (keyringPath w) ⟨w.keyStorage.key, kv⟩ w.files }

/-- The keyring (secret store) is readable, with contents `kkv`. -/
def KeyringReady (w : World) (kkv : Kv) : Prop :=
  w.keyStorage.rotatingKey = false ∧
  fsGet (keyringPath w) w.files = some ⟨w.keyStorage.key, kkv⟩

/-- Full resolution invariant for one logical database `name` carrying
descriptor `o`, engine key `ek` and contents `dkv`: the catalog resolves
the descriptor, the key resolves (keyring entry base64-decoding to `ek`
when secure, `ek = []` otherwise), the database file is on disk under
`ek`, and its path aliases neither the catalog nor the keyring file. -/
def LogicalDbReady (w : World) (name : String) (o : DbObject) (mkv : Kv) (ek : Bytes)
    (dkv : Kv) : Prop :=
  MetaReady w mkv ∧
  kvGet (prefixMetaDb ++ name) mkv = some (.dbObj o) ∧
  o.active = true ∧
  (o.secure = true →
    ∃ kkv kb, KeyringReady w kkv ∧
      kvGet (prefixMetaDb ++ name) kkv = some (.bytes kb) ∧ b64Decode kb = .ok ek) ∧
  (o.secure = false → ek = []) ∧
  fsGet (pathJoin o.dbPath o.dbFile) w.files = some ⟨ek, dkv⟩ ∧
  pathJoin o.dbPath o.dbFile ≠ metaPath w ∧
  pathJoin o.dbPath o.dbFile ≠ keyringPath w

/-- The world after rewriting a logical database's file in place. -/
def wSetData (w : World) (o : DbObject) (f : DbFile) : World :=
  { w with files := fsSet (pathJoin o.dbPath o.dbFile) f w.files }

/-- Advance the randomness cursor by `n` draws. -/
def wAdvRand (w : World) (n : Nat) : World := { w with randIdx := w.randIdx + n }

/-- The on-disk path `CreateDatabase` computes for the new logical
database (store root joined with `name ++ "-" ++ <16 random chars>`). -/
def createDbPath (w : World) (name : String) : String :=
  pathJoin w.fxConfig.storePath (name ++ "-" ++ bytesToStr (randomBytes fileIdLength w))

/-- The symmetric key `CreateDatabase(_, secure:=true)` generates (the
32 draws following the 16 filename draws). -/
def createGenKey (w : World) : Bytes := randomBytes keyLength (wAdvRand w fileIdLength)

/-- The descriptor `CreateDatabase` persists for a secure database. -/
def createDescriptor (w : World) (name : String) : DbObject :=
  { dbPath := w.fxConfig.storePath,
    dbFile := name ++ "-" ++ bytesToStr (randomBytes fileIdLength w),
    secure := true, created := w.clock, active := true, lastRotated := 0, deleted := 0 }

/-- The descriptor `CreateDatabase` persists for an unsecured database. -/
def createDescriptorU (w : World) (name : String) : DbObject :=
  { dbPath := w.fxConfig.storePath,
    dbFile := name ++ "-" ++ bytesToStr (randomBytes fileIdLength w),
    secure := false, created := w.clock, active := true, lastRotated := 0, deleted := 0 }

/-- The state of a secure `CreateDatabase` run right after the engine
open and the keyring write (steps 1-3), before the descriptor write. -/
def wCreateFiles (w : World) (name : String) (kkv : Kv) : World :=
  { w with
      files := fsSet (keyringPath w)
        ⟨w.keyStorage.key,
          kvSet (prefixMetaDb ++ name) (.bytes (b64Encode (createGenKey w))) kkv⟩
        (fsSet (createDbPath w name) ⟨createGenKey w, []⟩ w.files),
      randIdx := w.randIdx + fileIdLength + keyLength }

/-- The final state of a successful secure `CreateDatabase` run. -/
def wCreateDone (w : World) (name : String) (kkv mkv : Kv) : World :=
  { wCreateFiles w name kkv with
      clock := w.clock + 1 + 1,
      files := fsSet (metaPath w)
        ⟨w.metaStorage.key,
          kvSet (prefixMetaEvent ++ toString (w.clock + 1))
            (.event ⟨.create, "Created db object: " ++ name, w.clock + 1⟩)
            (kvSet (prefixMetaDb ++ name) (.dbObj (createDescriptor w name)) mkv)⟩
        (wCreateFiles w name kkv).files }

/-- The final state of a successful unsecured `CreateDatabase` run. -/
def wCreateDoneU (w : World) (name : String) (mkv : Kv) : World :=
  { w with
      clock := w.clock + 1 + 1,
      randIdx := w.randIdx + fileIdLength,
      files := fsSet (metaPath w)
        ⟨w.metaStorage.key,
          kvSet (prefixMetaEvent ++ toString (w.clock + 1))
            (.event ⟨.create, "Created db object: " ++ name, w.clock + 1⟩)
            (kvSet (prefixMetaDb ++ name) (.dbObj (createDescriptorU w name)) mkv)⟩
        (fsSet (createDbPath w name) ⟨[], []⟩ w.files) }

/-- The state in which a secure `CreateDatabase` run ends when the
descriptor write fails with the catalog rotation flag up: the database
file and the keyring secret exist, but no descriptor was written. -/
def wCreateFailed (w : World) (name : String) (kkv : Kv) : World :=
  { wCreateFiles w name kkv with clock := w.clock + 1 }

/-- The failed state of `wCreateFailed` with the obstruction (the
rotation flag) cleared, from which a retry proceeds. -/
def wRetryOf (w : World) (name : String) (kkv : Kv) : World :=
  { wCreateFiles w name kkv with
      clock := w.clock + 1,
      metaStorage := { w.metaStorage with rotatingKey := false } }

/-- The new catalog key `copyMetas` generates. -/
def copyNewKey (w : World) : Bytes := randomBytes keyLength w

/-- The new catalog file name `copyMetas` generates. -/
def copyNewFile (w : World) : String :=
  "meta-" ++ bytesToStr (randomBytes 10 (wAdvRand w keyLength))

/-- The path of the new catalog (`StorePath + newMetaFile`, plain
concatenation in the source). -/
def copyNewPath (w : World) : String := w.storePath ++ copyNewFile w

/-! ### Concrete example states -/

/-- Constant randomness oracle (every draw picks letter `a`). -/
def rfA : Nat → Fin 62 := fun _ => ⟨0, by omega⟩

/-- Oracle whose first 48 draws pick `a` and later draws pick `b`. -/
def rfAB : Nat → Fin 62 := fun n => if n < 48 then ⟨0, by omega⟩ else ⟨1, by omega⟩

/-- An active unsecured descriptor for logical database `d`. -/
def oActive : DbObject := ⟨"store", "d-x", false, 0, true, 0, 0⟩

/-- A soft-deleted (inactive) descriptor for logical database `d`. -/
def oInactive : DbObject := ⟨"store", "d-x", false, 0, false, 0, 0⟩

/-- An active secure descriptor for logical database `d`. -/
def oSecure : DbObject := ⟨"store", "d-x", true, 0, true, 0, 0⟩

/-- A small healthy state: a catalog holding the descriptor of the
unsecured active database `d`, the database file itself and the keyring. -/
def wExample : World :=
  { files := [(pathJoin "store" "meta-1", ⟨[1, 2, 3], [(prefixMetaDb ++ "d", .dbObj oActive)]⟩),
              (pathJoin "store" "d-x", ⟨[], []⟩),
              (pathJoin "store" "lock.db", ⟨[7], []⟩)],
    metaStorage := ⟨"store", "meta-1", [1, 2, 3], false⟩,
    keyStorage := ⟨"store", "lock.db", [7], false⟩,
    fxConfig := ⟨"alt", true, "store", "meta-1"⟩,
    storePath := "st/", clock := 5, randIdx := 0, randFun := rfA,
    exportFails := false, exportCut := 0, flushFails := false, flushCut := 0 }

/-- Like `wExample` but the stored descriptor is inactive. -/
def wInactive : World :=
  { wExample with
      files := [(pathJoin "store" "meta-1", ⟨[1, 2, 3], [(prefixMetaDb ++ "d", .dbObj oInactive)]⟩),
                (pathJoin "store" "d-x", ⟨[], []⟩)] }

/-- Like `wExample` but with the catalog rotation flag raised. -/
def wRotFlag : World :=
  { wExample with metaStorage := ⟨"store", "meta-1", [1, 2, 3], true⟩ }

/-- A state where the secure database `d` exists on disk under key
`[5, 5]` while the keyring stores (the base64 encoding of) `[9, 9]`:
opening `d` with the keyring key fails. -/
def wBug : World :=
  { wExample with
      files := [(pathJoin "store" "meta-1", ⟨[1, 2, 3], [(prefixMetaDb ++ "d", .dbObj oSecure)]⟩),
                (pathJoin "store" "d-x", ⟨[5, 5], []⟩),
                (pathJoin "store" "lock.db", ⟨[7], [(prefixMetaDb ++ "d", .bytes (b64Encode [9, 9]))]⟩)] }

/-- A catalog of two records whose streaming export will fail after
delivering only the first record, while the batch flush succeeds. -/
def wLoss : World :=
  { wExample with
      files := [(pathJoin "store" "meta-1", ⟨[1, 2, 3], [("a", .bytes [1]), ("b", .bytes [2])]⟩)],
      exportFails := true, exportCut := 1 }

/-- A catalog of two records whose import (write-batch flush into the
new catalog) will fail. -/
def wFlushCex : World :=
  { wExample with
      files := [(pathJoin "store" "meta-1", ⟨[1, 2, 3], [("a", .bytes [1]), ("b", .bytes [2])]⟩)],
      flushFails := true, flushCut := 0 }

/-- A state ready for `CreateDatabase`: empty catalog and keyring. -/
def wCreateW : World :=
  { wExample with
      files := [(pathJoin "store" "meta-1", ⟨[1, 2, 3], []⟩),
                (pathJoin "store" "lock.db", ⟨[7], []⟩)] }

/-- Like `wCreateW` but with the catalog rotation flag raised, and an
oracle whose retry draws differ from the first attempt's draws. -/
def wCreateFailW : World :=
  { wCreateW with metaStorage := ⟨"store", "meta-1", [1, 2, 3], true⟩, randFun := rfAB }

/-- A pre-existing database file under a key the creator cannot have
generated (its bytes are not alphanumeric). -/
def gBad : DbFile := ⟨[9], []⟩

/-! ### Association-list lemmas -/

theorem kvGet_kvSet_self (k : String) (v : Val) (kv : Kv) : kvGet k (kvSet k v kv) = some v := by
  induction kv with
  | nil => simp [kvSet, kvGet]
  | cons h t ih =>
      obtain ⟨k2, v2⟩ := h
      by_cases hk : k2 = k
      · simp [kvSet, hk, kvGet]
      · simp [kvSet, hk, kvGet, ih]

theorem kvGet_kvSet_ne (k k2 : String) (v : Val) (kv : Kv) (h : k2 ≠ k) :
    kvGet k (kvSet k2 v kv) = kvGet k kv := by
  induction kv with
  | nil => simp [kvSet, kvGet, h]
  | cons hd t ih =>
      obtain ⟨k3, v3⟩ := hd
      by_cases hk : k3 = k2
      · subst hk
        simp [kvSet, kvGet, h]
      · by_cases hk2 : k3 = k
        · simp [kvSet, kvGet, hk, hk2, Ne.symm h]
        · simp [kvSet, kvGet, hk, hk2, ih]

theorem kvGet_kvDel_self (k : String) (kv : Kv) : kvGet k (kvDel k kv) = none := by
  induction kv with
  | nil => simp [kvDel, kvGet]
  | cons hd t ih =>
      obtain ⟨k2, v2⟩ := hd
      by_cases hk : k2 = k
      · simp [kvDel, hk, ih]
      · simp [kvDel, kvGet, hk, ih]

theorem kvGet_kvDel_ne (k k2 : String) (kv : Kv) (h : k2 ≠ k) :
    kvGet k (kvDel k2 kv) = kvGet k kv := by
  induction kv with
  | nil => simp [kvDel]
  | cons hd t ih =>
      obtain ⟨k3, v3⟩ := hd
      by_cases hk : k3 = k2
      · subst hk
        simp [kvDel, kvGet, h, ih]
      · by_cases hk2 : k3 = k
        · simp [kvDel, kvGet, hk, hk2, Ne.symm h]
        · simp [kvDel, kvGet, hk, hk2, ih]

theorem fsGet_fsSet_self (p : String) (f : DbFile) (fs : FileSys) :
    fsGet p (fsSet p f fs) = some f := by
  induction fs with
  | nil => simp [fsSet, fsGet]
  | cons h t ih =>
      obtain ⟨q, g⟩ := h
      by_cases hq : q = p
      · simp [fsSet, hq, fsGet]
      · simp [fsSet, hq, fsGet, ih]

theorem fsGet_fsSet_ne (p q : String) (f : DbFile) (fs : FileSys) (h : q ≠ p) :
    fsGet p (fsSet q f fs) = fsGet p fs := by
  induction fs with
  | nil => simp [fsSet, fsGet, h]
  | cons hd t ih =>
      obtain ⟨r, g⟩ := hd
      by_cases hr : r = q
      · subst hr
        simp [fsSet, fsGet, h]
      · by_cases hr2 : r = p
        · simp [fsSet, fsGet, hr, hr2, Ne.symm h]
        · simp [fsSet, fsGet, hr, hr2, ih]

theorem kvGet_append (k : String) (a b : Kv) :
    kvGet k (a ++ b) =
      (match kvGet k a with
       | some v => some v
       | none => kvGet k b) := by
  induction a with
  | nil => simp [kvGet]
  | cons hd t ih =>
      obtain ⟨k2, v2⟩ := hd
      by_cases hk : k2 = k
      · simp [kvGet, hk]
      · simp [kvGet, hk, ih]

theorem kvSet_fresh (k : String) (v : Val) (kv : Kv) (h : kvGet k kv = none) :
    kvSet k v kv = kv ++ [(k, v)] := by
  induction kv with
  | nil => simp [kvSet]
  | cons hd t ih =>
      obtain ⟨k2, v2⟩ := hd
      by_cases hk : k2 = k
      · simp [kvGet, hk] at h
      · simp [kvGet, hk] at h
        simp [kvSet, hk, ih h]

theorem foldl_kvSet_of_nodup (values : Kv) :
    ∀ acc : Kv, (values.map Prod.fst).Nodup →
      (∀ e ∈ values, kvGet e.1 acc = none) →
      values.foldl (fun acc e => kvSet e.1 e.2 acc) acc = acc ++ values := by
  induction values with
  | nil => intro acc _ _; simp
  | cons hd t ih =>
      intro acc hnd habs
      obtain ⟨k, v⟩ := hd
      simp only [List.map_cons, List.nodup_cons, List.mem_map] at hnd
      have hfresh : kvGet k acc = none := habs (k, v) (List.mem_cons_self _ _)
      have hstep : kvSet k v acc = acc ++ [(k, v)] := kvSet_fresh k v acc hfresh
      have habs2 : ∀ e ∈ t, kvGet e.1 (acc ++ [(k, v)]) = none := by
        intro e he
        have h1 : kvGet e.1 acc = none := habs e (List.mem_cons_of_mem _ he)
        have h2 : k ≠ e.1 := by
          intro hk
          exact hnd.1 ⟨e, he, hk.symm⟩
        simp [kvGet_append, h1, kvGet, h2]
      calc (List.foldl (fun acc e => kvSet e.1 e.2 acc) acc ((k, v) :: t))
          = List.foldl (fun acc e => kvSet e.1 e.2 acc) (acc ++ [(k, v)]) t := by
            simp [hstep]
        _ = (acc ++ [(k, v)]) ++ t := ih (acc ++ [(k, v)]) hnd.2 habs2
        _ = acc ++ ((k, v) :: t) := by simp

/-! ### Catalog-level evaluation lemmas -/

theorem metaPath_wSetMeta (w : World) (kv : Kv) : metaPath (wSetMeta w kv) = metaPath w := rfl

theorem MetaReady_setMeta (w : World) (mkv kv2 : Kv) (h : MetaReady w mkv) :
    MetaReady (wSetMeta w kv2) kv2 := by
  obtain ⟨h1, _⟩ := h
  exact ⟨h1, by simp [wSetMeta, metaPath, fsGet_fsSet_self]⟩

theorem getMetaEntry_found (key : String) (w : World) (mkv : Kv) (v : Val)
    (h : MetaReady w mkv) (hv : kvGet key mkv = some v) :
    getMetaEntry key w = (.ok v, w) := by
  obtain ⟨h1, h2⟩ := h
  simp [getMetaEntry, h1, OpenDatabase, h2, getDbEntry, hv]

theorem writeMetaEntry_ready (key : String) (v : Val) (w : World) (mkv : Kv)
    (h : MetaReady w mkv) :
    writeMetaEntry key v w = (.ok (), wSetMeta w (kvSet key v mkv)) := by
  obtain ⟨h1, h2⟩ := h
  simp [writeMetaEntry, h1, OpenDatabase, h2, setDbEntry, wSetMeta]

theorem writeMetaEvent_ready (t : EventType) (c : String) (w : World) (mkv : Kv)
    (h : MetaReady w mkv) :
    writeMetaEvent t c w =
      (.ok (), wSetMeta { w with clock := w.clock + 1 }
        (kvSet (prefixMetaEvent ++ toString w.clock) (.event ⟨t, c, w.clock⟩) mkv)) := by
  obtain ⟨h1, h2⟩ := h
  have h3 : MetaReady { w with clock := w.clock + 1 } mkv := ⟨h1, h2⟩
  simp only [writeMetaEvent]
  exact writeMetaEntry_ready _ _ _ _ h3

theorem writeMetaDbObject_ready (name : String) (o : DbObject) (w : World) (mkv : Kv)
    (h : MetaReady w mkv) :
    writeMetaDbObject name o false w =
      (.ok (),
        wSetMeta { (wSetMeta w (kvSet (prefixMetaDb ++ name) (.dbObj o) mkv)) with
            clock := w.clock + 1 }
          (kvSet (prefixMetaEvent ++ toString w.clock)
            (.event ⟨.create, "Created db object: " ++ name, w.clock⟩)
            (kvSet (prefixMetaDb ++ name) (.dbObj o) mkv))) := by
  simp only [writeMetaDbObject]
  rw [writeMetaEntry_ready _ _ _ _ h]
  have h2 : MetaReady (wSetMeta w (kvSet (prefixMetaDb ++ name) (.dbObj o) mkv))
      (kvSet (prefixMetaDb ++ name) (.dbObj o) mkv) := MetaReady_setMeta _ _ _ h
  show writeMetaEvent .create ("Created db object: " ++ name) _ = _
  exact writeMetaEvent_ready _ _ _ _ h2

theorem getMetaDbObject_found (name : String) (w : World) (mkv : Kv) (o : DbObject)
    (h : MetaReady w mkv) (hv : kvGet (prefixMetaDb ++ name) mkv = some (.dbObj o)) :
    getMetaDbObject name w = (.ok o, w) := by
  simp only [getMetaDbObject]
  rw [getMetaEntry_found _ _ _ _ h hv]

theorem WriteToKeyring_ready (key : String) (v : Bytes) (w : World) (kkv : Kv)
    (h : KeyringReady w kkv) :
    WriteToKeyring key v w = (.ok (), wSetKeyring w (kvSet key (.bytes v) kkv)) := by
  obtain ⟨h1, h2⟩ := h
  simp [WriteToKeyring, h1, OpenDatabase, h2, setDbEntry, wSetKeyring]

theorem getFromKeyring_found (key : String) (w : World) (kkv : Kv) (bs : Bytes)
    (h : KeyringReady w kkv) (hv : kvGet key kkv = some (.bytes bs)) :
    getFromKeyring key w = (.ok bs, w) := by
  obtain ⟨h1, h2⟩ := h
  simp [getFromKeyring, h1, OpenDatabase, h2, getDbEntry, hv]

/-! ### Logical-database evaluation lemmas -/

theorem getDbKey_ready (name : String) (o : DbObject) (w : World) (mkv : Kv) (ek : Bytes)
    (dkv : Kv) (h : LogicalDbReady w name o mkv ek dkv) :
    getDbKey name o w = (.ok ek, w) := by
  obtain ⟨_, _, _, hsec, hins, _, _, _⟩ := h
  cases hs : o.secure with
  | true =>
      obtain ⟨kkv, kb, hkr, hkv, hdec⟩ := hsec hs
      simp only [getDbKey, hs, if_true]
      rw [getFromKeyring_found _ _ _ _ hkr hkv]
      simp [hdec]
  | false =>
      simp [getDbKey, hs, hins hs]

theorem openLogical_ready (o : DbObject) (w : World) (ek : Bytes) (dkv : Kv)
    (hfile : fsGet (pathJoin o.dbPath o.dbFile) w.files = some ⟨ek, dkv⟩)
    (hins : o.secure = false → ek = []) :
    (if o.secure then OpenDatabase (pathJoin o.dbPath o.dbFile) ek w
     else openUnsecuredDb (pathJoin o.dbPath o.dbFile) w) =
      (.ok (pathJoin o.dbPath o.dbFile), w) := by
  cases hs : o.secure with
  | true => simp [hs, OpenDatabase, hfile]
  | false =>
      have he : ek = [] := hins hs
      subst he
      simp [hs, openUnsecuredDb, hfile]

theorem InsertEntry_ready (name k : String) (v : Bytes) (w : World) (o : DbObject) (mkv : Kv)
    (ek : Bytes) (dkv : Kv) (h : LogicalDbReady w name o mkv ek dkv) :
    InsertEntry name k v w = (.ok (), wSetData w o ⟨ek, kvSet k (.bytes v) dkv⟩) := by
  have hmd := getMetaDbObject_found name w mkv o h.1 h.2.1
  have hdk := getDbKey_ready name o w mkv ek dkv h
  obtain ⟨hm, hobj, hact, hsec, hins, hfile, hne1, hne2⟩ := h
  have hop := openLogical_ready o w ek dkv hfile hins
  simp only [InsertEntry, hmd, hact, Bool.not_true, Bool.false_eq_true, if_false, hdk, hop,
    setDbEntry, hfile, CloseDatabase, wSetData]

theorem GetEntry_found (name k : String) (w : World) (o : DbObject) (mkv : Kv)
    (ek : Bytes) (dkv : Kv) (v : Val) (h : LogicalDbReady w name o mkv ek dkv)
    (hv : kvGet k dkv = some v) :
    GetEntry name k w = (.ok v, w) := by
  have hmd := getMetaDbObject_found name w mkv o h.1 h.2.1
  have hdk := getDbKey_ready name o w mkv ek dkv h
  obtain ⟨hm, hobj, hact, hsec, hins, hfile, hne1, hne2⟩ := h
  have hop := openLogical_ready o w ek dkv hfile hins
  simp only [GetEntry, hmd, hact, Bool.not_true, Bool.false_eq_true, if_false, hdk, hop,
    getDbEntry, hfile, hv, CloseDatabase]

theorem GetEntry_missing (name k : String) (w : World) (o : DbObject) (mkv : Kv)
    (ek : Bytes) (dkv : Kv) (h : LogicalDbReady w name o mkv ek dkv)
    (hv : kvGet k dkv = none) :
    GetEntry name k w = (.error .notFound, w) := by
  have hmd := getMetaDbObject_found name w mkv o h.1 h.2.1
  have hdk := getDbKey_ready name o w mkv ek dkv h
  obtain ⟨hm, hobj, hact, hsec, hins, hfile, hne1, hne2⟩ := h
  have hop := openLogical_ready o w ek dkv hfile hins
  simp only [GetEntry, hmd, hact, Bool.not_true, Bool.false_eq_true, if_false, hdk, hop,
    getDbEntry, hfile, hv]

theorem RemoveEntry_ready (name k : String) (w : World) (o : DbObject) (mkv : Kv)
    (ek : Bytes) (dkv : Kv) (h : LogicalDbReady w name o mkv ek dkv) :
    RemoveEntry name k w = (.ok (), wSetData w o ⟨ek, kvDel k dkv⟩) := by
  have hmd := getMetaDbObject_found name w mkv o h.1 h.2.1
  have hdk := getDbKey_ready name o w mkv ek dkv h
  obtain ⟨hm, hobj, hact, hsec, hins, hfile, hne1, hne2⟩ := h
  have hop := openLogical_ready o w ek dkv hfile hins
  simp only [RemoveEntry, hmd, hact, Bool.not_true, Bool.false_eq_true, if_false, hdk, hop,
    delDbEntry, hfile, CloseDatabase, wSetData]

theorem LogicalDbReady_setData (w : World) (name : String) (o : DbObject) (mkv : Kv)
    (ek : Bytes) (dkv dkv2 : Kv) (h : LogicalDbReady w name o mkv ek dkv) :
    LogicalDbReady (wSetData w o ⟨ek, dkv2⟩) name o mkv ek dkv2 := by
  obtain ⟨⟨hm1, hm2⟩, hobj, hact, hsec, hins, hfile, hne1, hne2⟩ := h
  refine ⟨⟨hm1, ?_⟩, hobj, hact, ?_, hins, ?_, hne1, hne2⟩
  · show fsGet (metaPath w) (fsSet (pathJoin o.dbPath o.dbFile) _ w.files) = _
    rw [fsGet_fsSet_ne _ _ _ _ hne1]
    exact hm2
  · intro hs
    obtain ⟨kkv, kb, ⟨hk1, hk2⟩, hkv, hdec⟩ := hsec hs
    refine ⟨kkv, kb, ⟨hk1, ?_⟩, hkv, hdec⟩
    show fsGet (keyringPath w) (fsSet (pathJoin o.dbPath o.dbFile) _ w.files) = _
    rw [fsGet_fsSet_ne _ _ _ _ hne2]
    exact hk2
  · show fsGet (pathJoin o.dbPath o.dbFile) (fsSet (pathJoin o.dbPath o.dbFile) _ w.files) = _
    rw [fsGet_fsSet_self]

/-! ### Base64 and randomness lemmas -/

theorem b64Sextet_b64Byte : ∀ s, s < 64 → b64Sextet (b64Byte s) = .ok s := by decide

theorem b64Byte_ne_pad : ∀ s, s < 64 → b64Byte s ≠ 61 := by decide

theorem alphaNum_length : alphaNum.length = 62 := by rfl

theorem alphaNum_lt_256 : ∀ b ∈ alphaNum, b < 256 := by decide

theorem b64_roundtrip (bs : Bytes) (h : ∀ b ∈ bs, b < 256) :
    b64Decode (b64Encode bs) = .ok bs := by
  induction bs using b64Encode.induct with
  | case1 => simp [b64Encode, b64Decode]
  | case2 a =>
      have ha : a < 256 := h a (by simp)
      have h0 : a / 4 < 64 := by omega
      have h1 : a % 4 * 16 < 64 := by omega
      simp [b64Encode, b64Decode, b64Sextet_b64Byte _ h0, b64Sextet_b64Byte _ h1,
        Except.instMonad, Except.bind]
      omega
  | case3 a b =>
      have ha : a < 256 := h a (by simp)
      have hb : b < 256 := h b (by simp)
      have h0 : a / 4 < 64 := by omega
      have h1 : a % 4 * 16 + b / 16 < 64 := by omega
      have h2 : b % 16 * 4 < 64 := by omega
      simp [b64Encode, b64Decode, b64Sextet_b64Byte _ h0, b64Sextet_b64Byte _ h1,
        b64Sextet_b64Byte _ h2, b64Byte_ne_pad _ h2, Except.instMonad, Except.bind]
      omega
  | case4 a b c rest ih =>
      have ha : a < 256 := h a (by simp)
      have hb : b < 256 := h b (by simp)
      have hc : c < 256 := h c (by simp)
      have hrest : ∀ x ∈ rest, x < 256 := fun x hx => h x (by simp [hx])
      have h0 : a / 4 < 64 := by omega
      have h1 : a % 4 * 16 + b / 16 < 64 := by omega
      have h2 : b % 16 * 4 + c / 64 < 64 := by omega
      have h3 : c % 64 < 64 := by omega
      simp [b64Encode, b64Decode, b64Sextet_b64Byte _ h0, b64Sextet_b64Byte _ h1,
        b64Sextet_b64Byte _ h2, b64Sextet_b64Byte _ h3, b64Byte_ne_pad _ h2,
        b64Byte_ne_pad _ h3, ih hrest, Except.instMonad, Except.bind]
      omega

theorem randomBytesAt_length (rf : Nat → Fin 62) (idx n : Nat) :
    (randomBytesAt rf idx n).length = n := by
  simp [randomBytesAt]

theorem randomBytesAt_mem (rf : Nat → Fin 62) (idx n : Nat) :
    ∀ b ∈ randomBytesAt rf idx n, b ∈ alphaNum := by
  intro b hb
  simp only [randomBytesAt, List.mem_map, List.mem_range] at hb
  obtain ⟨i, hi, rfl⟩ := hb
  have hlt : (rf (idx + i)).val < alphaNum.length := by
    have h62 := (rf (idx + i)).isLt
    rw [alphaNum_length]
    omega
  rw [List.getD_eq_getElem _ _ hlt]
  exact List.getElem_mem hlt

theorem randomBytesAt_lt_256 (rf : Nat → Fin 62) (idx n : Nat) :
    ∀ b ∈ randomBytesAt rf idx n, b < 256 :=
  fun b hb => alphaNum_lt_256 b (randomBytesAt_mem rf idx n b hb)

theorem randomBytes_length (n : Nat) (w : World) : (randomBytes n w).length = n :=
  randomBytesAt_length w.randFun w.randIdx n

theorem randomBytes_mem (n : Nat) (w : World) : ∀ b ∈ randomBytes n w, b ∈ alphaNum :=
  randomBytesAt_mem w.randFun w.randIdx n

theorem randomBytes_lt_256 (n : Nat) (w : World) : ∀ b ∈ randomBytes n w, b < 256 :=
  randomBytesAt_lt_256 w.randFun w.randIdx n

/-! ### Rotation evaluation -/

theorem fsSet_fsSet (p : String) (f g : DbFile) (fs : FileSys) :
    fsSet p f (fsSet p g fs) = fsSet p f fs := by
  induction fs with
  | nil => simp [fsSet]
  | cons hd t ih =>
      obtain ⟨q, e⟩ := hd
      by_cases hq : q = p
      · simp [fsSet, hq]
      · simp [fsSet, hq, ih]

theorem copyMetas_eq (w : World) (mkv : Kv)
    (hrot : w.metaStorage.rotatingKey = false)
    (hm2 : fsGet (metaPath w) w.files = some ⟨w.metaStorage.key, mkv⟩)
    (hfresh : fsGet (copyNewPath w) w.files = none) :
    copyMetas w =
      ((if w.flushFails then Except.error Err.flushFail
        else Except.ok (copyNewFile w, copyNewKey w)),
        { w with
            files := fsSet (copyNewPath w)
              ⟨copyNewKey w,
                (if w.flushFails
                 then (if w.exportFails then mkv.take w.exportCut else mkv).take w.flushCut
                 else (if w.exportFails then mkv.take w.exportCut else mkv)).foldl
                  (fun acc e => kvSet e.1 e.2 acc) []⟩ w.files,
            metaStorage := { w.metaStorage with rotatingKey := false },
            randIdx := w.randIdx + keyLength + 10 }) := by
  have hne : copyNewPath w ≠ metaPath w := by
    intro he
    rw [he, hm2] at hfresh
    cases hfresh
  simp only [copyNewPath, copyNewFile, copyNewKey, randomBytes, wAdvRand] at hfresh hne ⊢
  have hgg : ∀ (f : DbFile) (fs : FileSys),
      fsGet (metaPath w) (fsSet (w.storePath ++ ("meta-" ++ bytesToStr
        (randomBytesAt w.randFun (w.randIdx + keyLength) 10))) f fs) = fsGet (metaPath w) fs :=
    fun f fs => fsGet_fsSet_ne _ _ f fs hne
  by_cases hfl : w.flushFails
  · simp only [copyMetas, hrot, Bool.false_eq_true, if_false, OpenDatabase, hm2,
      randomValues, randomBytes, batchInsertGeneric, hfl, fsGet_fsSet_self, fsSet_fsSet,
      hgg, hfresh, if_true, eq_self_iff_true]
  · simp only [copyMetas, hrot, Bool.false_eq_true, if_false, OpenDatabase, hm2,
      randomValues, randomBytes, batchInsertGeneric, hfl, fsGet_fsSet_self, fsSet_fsSet,
      hgg, hfresh, if_true, eq_self_iff_true]

/-! ### CreateDatabase evaluation -/

theorem CreateDatabase_secure_eq (name : String) (w : World) (kkv mkv : Kv)
    (hkr : KeyringReady w kkv) (hm : MetaReady w mkv)
    (hfresh : fsGet (createDbPath w name) w.files = none)
    (hne1 : createDbPath w name ≠ keyringPath w)
    (hne2 : createDbPath w name ≠ metaPath w)
    (hne3 : keyringPath w ≠ metaPath w) :
    CreateDatabase name true w = (.ok (), wCreateDone w name kkv mkv) := by
  obtain ⟨hkr1, hkr2⟩ := hkr
  obtain ⟨hm1, hm2⟩ := hm
  simp only [createDbPath, createGenKey, keyringPath, metaPath, randomBytes, wAdvRand]
    at hfresh hne1 hne2 hne3 hkr2 hm2 ⊢
  have hggKR : ∀ (f : DbFile) (fs : FileSys),
      fsGet (pathJoin w.keyStorage.path w.keyStorage.file)
        (fsSet (pathJoin w.fxConfig.storePath
          (name ++ "-" ++ bytesToStr (randomBytesAt w.randFun w.randIdx fileIdLength))) f fs) =
      fsGet (pathJoin w.keyStorage.path w.keyStorage.file) fs :=
    fun f fs => fsGet_fsSet_ne _ _ f fs hne1
  have hggM1 : ∀ (f : DbFile) (fs : FileSys),
      fsGet (pathJoin w.metaStorage.path w.metaStorage.file)
        (fsSet (pathJoin w.fxConfig.storePath
          (name ++ "-" ++ bytesToStr (randomBytesAt w.randFun w.randIdx fileIdLength))) f fs) =
      fsGet (pathJoin w.metaStorage.path w.metaStorage.file) fs :=
    fun f fs => fsGet_fsSet_ne _ _ f fs hne2
  have hggM2 : ∀ (f : DbFile) (fs : FileSys),
      fsGet (pathJoin w.metaStorage.path w.metaStorage.file)
        (fsSet (pathJoin w.keyStorage.path w.keyStorage.file) f fs) =
      fsGet (pathJoin w.metaStorage.path w.metaStorage.file) fs :=
    fun f fs => fsGet_fsSet_ne _ _ f fs hne3
  simp only [CreateDatabase, randomValues, randomBytes, OpenDatabase, WriteToKeyring,
    createDbFinish, writeMetaDbObject, writeMetaEntry, writeMetaEvent, setDbEntry,
    CloseDatabase, keyringPath, metaPath, wCreateDone, wCreateFiles, createDescriptor,
    createDbPath, createGenKey, wAdvRand, hfresh, hkr1, hkr2, hm1, hm2, hggKR, hggM1,
    hggM2, fsGet_fsSet_self, fsSet_fsSet, Bool.false_eq_true, if_false, if_true,
    eq_self_iff_true]

theorem CreateDatabase_secure_rotflag_eq (name : String) (w : World) (kkv : Kv)
    (hkr : KeyringReady w kkv)
    (hrot : w.metaStorage.rotatingKey = true)
    (hfresh : fsGet (createDbPath w name) w.files = none)
    (hne1 : createDbPath w name ≠ keyringPath w) :
    CreateDatabase name true w =
      (.error .dbRotating, { wCreateFiles w name kkv with clock := w.clock + 1 }) := by
  obtain ⟨hkr1, hkr2⟩ := hkr
  simp only [createDbPath, createGenKey, keyringPath, randomBytes, wAdvRand]
    at hfresh hne1 hkr2 ⊢
  have hggKR : ∀ (f : DbFile) (fs : FileSys),
      fsGet (pathJoin w.keyStorage.path w.keyStorage.file)
        (fsSet (pathJoin w.fxConfig.storePath
          (name ++ "-" ++ bytesToStr (randomBytesAt w.randFun w.randIdx fileIdLength))) f fs) =
      fsGet (pathJoin w.keyStorage.path w.keyStorage.file) fs :=
    fun f fs => fsGet_fsSet_ne _ _ f fs hne1
  simp only [CreateDatabase, randomValues, randomBytes, OpenDatabase, WriteToKeyring,
    createDbFinish, writeMetaDbObject, writeMetaEntry, writeMetaEvent, setDbEntry,
    CloseDatabase, keyringPath, wCreateFiles, createDbPath, createGenKey, wAdvRand,
    hfresh, hkr1, hkr2, hrot, hggKR, fsGet_fsSet_self, fsSet_fsSet, Bool.false_eq_true,
    if_false, if_true, eq_self_iff_true]

theorem CreateDatabase_insec_eq (name : String) (w : World) (mkv : Kv)
    (hm : MetaReady w mkv)
    (hfresh : fsGet (createDbPath w name) w.files = none)
    (hne2 : createDbPath w name ≠ metaPath w) :
    CreateDatabase name false w = (.ok (), wCreateDoneU w name mkv) := by
  obtain ⟨hm1, hm2⟩ := hm
  simp only [createDbPath, metaPath, randomBytes, wAdvRand] at hfresh hne2 hm2 ⊢
  have hggM1 : ∀ (f : DbFile) (fs : FileSys),
      fsGet (pathJoin w.metaStorage.path w.metaStorage.file)
        (fsSet (pathJoin w.fxConfig.storePath
          (name ++ "-" ++ bytesToStr (randomBytesAt w.randFun w.randIdx fileIdLength))) f fs) =
      fsGet (pathJoin w.metaStorage.path w.metaStorage.file) fs :=
    fun f fs => fsGet_fsSet_ne _ _ f fs hne2
  simp only [CreateDatabase, randomValues, randomBytes, openUnsecuredDb, OpenDatabase,
    createDbFinish, writeMetaDbObject, writeMetaEntry, writeMetaEvent, setDbEntry,
    CloseDatabase, metaPath, wCreateDoneU, createDescriptorU, createDbPath, wAdvRand,
    hfresh, hm1, hm2, hggM1, fsGet_fsSet_self, fsSet_fsSet, Bool.false_eq_true,
    if_false, if_true, eq_self_iff_true]

theorem CreateDatabase_secure_openfail_eq (name : String) (w : World) (g : DbFile)
    (hg : fsGet (createDbPath w name) w.files = some g)
    (hge : g.enc ≠ createGenKey w) :
    CreateDatabase name true w =
      (.error .keyMismatch, { w with randIdx := w.randIdx + fileIdLength + keyLength }) := by
  simp only [createDbPath, createGenKey, randomBytes, wAdvRand] at hg hge ⊢
  simp only [CreateDatabase, randomValues, randomBytes, OpenDatabase, createDbPath,
    wAdvRand, hg, hge, Bool.false_eq_true, if_false, if_true, eq_self_iff_true]

theorem CreateDatabase_insec_openfail_eq (name : String) (w : World) (g : DbFile)
    (hg : fsGet (createDbPath w name) w.files = some g)
    (hge : g.enc ≠ []) :
    CreateDatabase name false w =
      (.error .keyMismatch, { w with randIdx := w.randIdx + fileIdLength }) := by
  simp only [createDbPath, randomBytes, wAdvRand] at hg ⊢
  simp only [CreateDatabase, randomValues, randomBytes, openUnsecuredDb, createDbPath,
    wAdvRand, hg, hge, Bool.false_eq_true, if_false, if_true, eq_self_iff_true]

/-! ### Claim theorems -/

/-- C6: `UpdateEntry(name, key, value)` is extensionally equal to
`InsertEntry(name, key, value)` — update is a plain re-insert with
last-write-wins semantics and performs no optimistic-concurrency check. -/
theorem updateEntry_is_insertEntry : @UpdateEntry = @InsertEntry := rfl

/-- C10: `randomValues n` always returns a `nil` error and exactly `n`
bytes, each drawn from the 62-character alphanumeric alphabet; with
`keyLength = 32`, every symmetric key generated for the catalog or a
secure logical database is exactly 32 alphanumeric (hence printable)
bytes, and every filename suffix has the requested length. -/
theorem randomValues_always_alphanumeric (n : Nat) (w : World) :
    (randomValues n w).1.2 = none ∧
    (randomValues n w).1.1.length = n ∧
    (randomValues n w).1.1.all (fun b => alphaNum.contains b) = true ∧
    keyLength = 32 ∧
    (randomValues keyLength w).1.1.length = 32 := by
  refine ⟨rfl, randomBytes_length n w, ?_, rfl, randomBytes_length keyLength w⟩
  rw [List.all_eq_true]
  intro b hb
  exact List.elem_eq_true_of_mem (randomBytes_mem n w b hb)

/-- C2: while the catalog rotation flag is set, every catalog operation
(`writeMetaEntry` — hence `WriteMetaConfig` and `writeMetaDbObject` —,
`getMetaEntry`, `listDatabases`, `ListDatabases`, `ListConfigurations`,
`metaBatchInsert`) returns the `RotationInProgress` error immediately,
with the state untouched, and starting a new rotation (`copyMetas`)
fails immediately with the rotation-already-in-progress error. -/
theorem rotation_guard (w : World) (k : String) (v : Val) (cfg : Config) (name : String)
    (o : DbObject) (u : Bool) (values : Kv)
    (h : w.metaStorage.rotatingKey = true) :
    writeMetaEntry k v w = (.error .dbRotating, w) ∧
    getMetaEntry k w = (.error .dbRotating, w) ∧
    WriteMetaConfig cfg w = (.error .dbRotating, w) ∧
    writeMetaDbObject name o u w = (.error .dbRotating, w) ∧
    listDatabases w = (.error .dbRotating, w) ∧
    ListDatabases w = (.error .dbRotating, w) ∧
    ListConfigurations w = (.error .dbRotating, w) ∧
    metaBatchInsert values w = (.error .dbRotating, w) ∧
    copyMetas w = (.error .rotateFlagRaised, w) := by
  refine ⟨?_, ?_, ?_, ?_, ?_, ?_, ?_, ?_, ?_⟩ <;>
    simp [writeMetaEntry, getMetaEntry, WriteMetaConfig, writeMetaDbObject, listDatabases,
      ListDatabases, ListConfigurations, metaBatchInsert, copyMetas, h]

/-- Witness for C2 at a concrete rotating state. -/
theorem rotation_guard_witness :
    wRotFlag.metaStorage.rotatingKey = true ∧
    ListDatabases wRotFlag = (.error .dbRotating, wRotFlag) ∧
    copyMetas wRotFlag = (.error .rotateFlagRaised, wRotFlag) := by
  have h := rotation_guard wRotFlag "k" (.bytes [1]) ⟨"s", true, "s", "m"⟩ "n" oActive false [] rfl
  exact ⟨rfl, h.2.2.2.2.2.1, h.2.2.2.2.2.2.2.2⟩

/-- C4: for a logical database whose stored descriptor has
`active = false`, each of `InsertEntry`, `UpdateEntry`, `RemoveEntry`,
`BatchInsert` and `GetEntry` fails with the `Inactive` error before
opening the underlying database, leaving the whole state (in particular
the database's contents) unchanged. -/
theorem inactive_rejected (w : World) (name : String) (o : DbObject) (mkv : Kv)
    (k : String) (v : Bytes) (entries : List (String × Bytes))
    (hm : MetaReady w mkv)
    (hobj : kvGet (prefixMetaDb ++ name) mkv = some (.dbObj o))
    (hina : o.active = false) :
    InsertEntry name k v w = (.error (.dbInactive name), w) ∧
    UpdateEntry name k v w = (.error (.dbInactive name), w) ∧
    RemoveEntry name k w = (.error (.dbInactive name), w) ∧
    BatchInsert name entries w = (.error (.dbInactive name), w) ∧
    GetEntry name k w = (.error (.dbInactive name), w) := by
  have hmd := getMetaDbObject_found name w mkv o hm hobj
  refine ⟨?_, ?_, ?_, ?_, ?_⟩ <;>
    simp [InsertEntry, UpdateEntry, RemoveEntry, BatchInsert, GetEntry, hmd, hina]

/-- Witness for C4 at a concrete state holding an inactive descriptor. -/
theorem inactive_rejected_witness :
    InsertEntry "d" "k" [1] wInactive = (.error (.dbInactive "d"), wInactive) ∧
    GetEntry "d" "k" wInactive = (.error (.dbInactive "d"), wInactive) := by
  have h := inactive_rejected wInactive "d" oInactive
    [(prefixMetaDb ++ "d", .dbObj oInactive)] "k" [1] [] ⟨rfl, rfl⟩ rfl rfl
  exact ⟨h.1, h.2.2.2.2⟩

/-- C5: on an active logical database, after `InsertEntry(name, k, v1)`
succeeds, `GetEntry(name, k)` returns `v1` — also after an insert under a
different key — until `k` is overwritten or removed; after a subsequent
`UpdateEntry(name, k, v2)` succeeds, `GetEntry(name, k)` returns `v2`; and
after `RemoveEntry(name, k)` succeeds, `GetEntry(name, k)` fails `NotFound`. -/
theorem insert_get_update_remove (w : World) (name k k2 : String) (o : DbObject)
    (mkv : Kv) (ek : Bytes) (dkv : Kv) (v1 v2 u : Bytes)
    (h : LogicalDbReady w name o mkv ek dkv) (hk2 : k2 ≠ k) :
    ∃ w1 w1b w2 w3,
      InsertEntry name k v1 w = (.ok (), w1) ∧
      GetEntry name k w1 = (.ok (.bytes v1), w1) ∧
      InsertEntry name k2 u w1 = (.ok (), w1b) ∧
      GetEntry name k w1b = (.ok (.bytes v1), w1b) ∧
      UpdateEntry name k v2 w1 = (.ok (), w2) ∧
      GetEntry name k w2 = (.ok (.bytes v2), w2) ∧
      RemoveEntry name k w2 = (.ok (), w3) ∧
      GetEntry name k w3 = (.error .notFound, w3) := by
  have h1 := LogicalDbReady_setData w name o mkv ek dkv (kvSet k (.bytes v1) dkv) h
  have h1b := LogicalDbReady_setData _ name o mkv ek _
    (kvSet k2 (.bytes u) (kvSet k (.bytes v1) dkv)) h1
  have h2 := LogicalDbReady_setData _ name o mkv ek _
    (kvSet k (.bytes v2) (kvSet k (.bytes v1) dkv)) h1
  have h3 := LogicalDbReady_setData _ name o mkv ek _
    (kvDel k (kvSet k (.bytes v2) (kvSet k (.bytes v1) dkv))) h2
  refine ⟨wSetData w o ⟨ek, kvSet k (.bytes v1) dkv⟩,
    wSetData (wSetData w o ⟨ek, kvSet k (.bytes v1) dkv⟩) o
      ⟨ek, kvSet k2 (.bytes u) (kvSet k (.bytes v1) dkv)⟩,
    wSetData (wSetData w o ⟨ek, kvSet k (.bytes v1) dkv⟩) o
      ⟨ek, kvSet k (.bytes v2) (kvSet k (.bytes v1) dkv)⟩,
    wSetData (wSetData (wSetData w o ⟨ek, kvSet k (.bytes v1) dkv⟩) o
      ⟨ek, kvSet k (.bytes v2) (kvSet k (.bytes v1) dkv)⟩) o
      ⟨ek, kvDel k (kvSet k (.bytes v2) (kvSet k (.bytes v1) dkv))⟩,
    InsertEntry_ready name k v1 w o mkv ek dkv h, ?_, ?_, ?_, ?_, ?_, ?_, ?_⟩
  · exact GetEntry_found name k _ o mkv ek _ (.bytes v1) h1 (kvGet_kvSet_self k _ dkv)
  · exact InsertEntry_ready name k2 u _ o mkv ek _ h1
  · refine GetEntry_found name k _ o mkv ek _ (.bytes v1) h1b ?_
    rw [kvGet_kvSet_ne k k2 _ _ hk2]
    exact kvGet_kvSet_self k _ dkv
  · show InsertEntry name k v2 _ = _
    exact InsertEntry_ready name k v2 _ o mkv ek _ h1
  · exact GetEntry_found name k _ o mkv ek _ (.bytes v2) h2 (kvGet_kvSet_self k _ _)
  · exact RemoveEntry_ready name k _ o mkv ek _ h2
  · exact GetEntry_missing name k _ o mkv ek _ h3 (kvGet_kvDel_self k _)

/-- Witness for C5: the full insert/get/update/remove chain on the
concrete state `wExample`. -/
theorem insert_get_update_remove_witness :
    ∃ w1 w1b w2 w3,
      InsertEntry "d" "k" [1] wExample = (.ok (), w1) ∧
      GetEntry "d" "k" w1 = (.ok (.bytes [1]), w1) ∧
      InsertEntry "d" "j" [9] w1 = (.ok (), w1b) ∧
      GetEntry "d" "k" w1b = (.ok (.bytes [1]), w1b) ∧
      UpdateEntry "d" "k" [2] w1 = (.ok (), w2) ∧
      GetEntry "d" "k" w2 = (.ok (.bytes [2]), w2) ∧
      RemoveEntry "d" "k" w2 = (.ok (), w3) ∧
      GetEntry "d" "k" w3 = (.error .notFound, w3) := by
  have hready : LogicalDbReady wExample "d" oActive
      [(prefixMetaDb ++ "d", .dbObj oActive)] [] [] := by
    refine ⟨⟨rfl, rfl⟩, rfl, rfl, fun hs => absurd hs (by decide), fun _ => rfl, rfl, ?_, ?_⟩
    · decide
    · decide
  exact insert_get_update_remove wExample "d" "k" "j" oActive _ [] [] [1] [2] [9] hready
    (by decide)

/-- C9 (code bug): at the state `wBug` — a secure, active descriptor
whose on-disk file is encrypted under `[5, 5]` while the keyring holds
the base64 encoding of `[9, 9]` — opening the engine database fails
with a key mismatch, yet `GetStorageObject "d"` returns a `Storage`
object (with a `nil` handle) and a `nil` error instead of surfacing the
failure. -/
theorem getStorageObject_swallows_open_error :
    (OpenDatabase (pathJoin "store" "d-x") [9, 9] wBug).1 = .error .keyMismatch ∧
    (GetStorageObject "d" wBug).1 = .ok ⟨none, "store", "d-x", b64Encode [9, 9], false⟩ := by
  exact ⟨by decide, by decide⟩

/-- C1 (code bug): at the state `wLoss` — a catalog of two records whose
streaming export fails after delivering one record while the batch flush
succeeds — `copyMetas` returns without error (the `stream.Orchestrate`
error is overwritten by the flush result), yet the new catalog at the
returned (path, key) holds only one of the two records; the old catalog
file is left unmodified. -/
theorem copyMetas_silent_record_loss :
    (copyMetas wLoss).1 = .ok ("meta-aaaaaaaaaa", List.replicate 32 97) ∧
    fsGet (pathJoin "store" "meta-1") (copyMetas wLoss).2.files =
      some ⟨[1, 2, 3], [("a", .bytes [1]), ("b", .bytes [2])]⟩ ∧
    fsGet "st/meta-aaaaaaaaaa" (copyMetas wLoss).2.files =
      some ⟨List.replicate 32 97, [("a", .bytes [1])]⟩ ∧
    kvGet "b" [("a", .bytes [1])] = none := by
  exact ⟨by decide, by decide, by decide, by decide⟩

/-- C3 (counterexample): at the state `wFlushCex` the import (the
write-batch flush into the new catalog) fails, yet `copyMetas` returns
with the rotating flag cleared to `false` — not left `true` as the claim
states. -/
theorem copyMetas_flag_cleared_on_import_failure :
    wFlushCex.flushFails = true ∧
    (copyMetas wFlushCex).1 = .error .flushFail ∧
    (copyMetas wFlushCex).2.metaStorage.rotatingKey = false := by
  exact ⟨rfl, by decide, by decide⟩

/-- C3 (amended): when the export or the import step of `copyMetas`
fails, the operation returns with the rotating flag cleared — reset to
`false` on the straight-line path, not left `true` — while the old
catalog file is untouched and still openable with its original key; a
failing import is reported to the caller, and a failing export alone is
not (the call then reports success). -/
theorem copyMetas_error_paths (w : World) (mkv : Kv)
    (hrot : w.metaStorage.rotatingKey = false)
    (hm2 : fsGet (metaPath w) w.files = some ⟨w.metaStorage.key, mkv⟩)
    (hfresh : fsGet (copyNewPath w) w.files = none)
    (hfail : w.exportFails = true ∨ w.flushFails = true) :
    (copyMetas w).2.metaStorage.rotatingKey = false ∧
    fsGet (metaPath w) (copyMetas w).2.files = some ⟨w.metaStorage.key, mkv⟩ ∧
    (OpenDatabase (metaPath w) w.metaStorage.key (copyMetas w).2).1 = .ok (metaPath w) ∧
    (w.flushFails = true → (copyMetas w).1 = .error .flushFail) ∧
    (w.flushFails = false → (copyMetas w).1 = .ok (copyNewFile w, copyNewKey w)) := by
  have hne : copyNewPath w ≠ metaPath w := by
    intro he
    rw [he, hm2] at hfresh
    cases hfresh
  have hold : fsGet (metaPath w) (copyMetas w).2.files = some ⟨w.metaStorage.key, mkv⟩ := by
    rw [copyMetas_eq w mkv hrot hm2 hfresh]
    show fsGet (metaPath w) (fsSet (copyNewPath w) _ w.files) = _
    rw [fsGet_fsSet_ne _ _ _ _ hne]
    exact hm2
  refine ⟨?_, hold, ?_, ?_, ?_⟩
  · rw [copyMetas_eq w mkv hrot hm2 hfresh]
  · simp [OpenDatabase, hold]
  · intro hf
    rw [copyMetas_eq w mkv hrot hm2 hfresh]
    simp [hf]
  · intro hf
    rw [copyMetas_eq w mkv hrot hm2 hfresh]
    simp [hf]

/-- Witness for C3's amended statement at the concrete failing state. -/
theorem copyMetas_error_paths_witness :
    (copyMetas wFlushCex).2.metaStorage.rotatingKey = false ∧
    fsGet (metaPath wFlushCex) (copyMetas wFlushCex).2.files =
      some ⟨wFlushCex.metaStorage.key, [("a", .bytes [1]), ("b", .bytes [2])]⟩ ∧
    (OpenDatabase (metaPath wFlushCex) wFlushCex.metaStorage.key (copyMetas wFlushCex).2).1 =
      .ok (metaPath wFlushCex) := by
  have h := copyMetas_error_paths wFlushCex [("a", .bytes [1]), ("b", .bytes [2])]
    rfl (by decide) (by decide) (Or.inr rfl)
  exact ⟨h.1, h.2.1, h.2.2.1⟩

/-- C7: after `CreateDatabase(name, secure := true)` succeeds, the
secret store holds an entry under the db prefix plus the name whose
value base64-decodes to a key of exactly the fixed key length (32
bytes); after `CreateDatabase(name, secure := false)` succeeds, the
secret store is untouched and (starting from a state with no entry for
that name) contains no entry for the name. -/
theorem createDatabase_secret_store (w : World) (name : String) (kkv mkv : Kv)
    (hkr : KeyringReady w kkv) (hm : MetaReady w mkv)
    (hfresh : fsGet (createDbPath w name) w.files = none)
    (hne1 : createDbPath w name ≠ keyringPath w)
    (hne2 : createDbPath w name ≠ metaPath w)
    (hne3 : keyringPath w ≠ metaPath w)
    (hnone : kvGet (prefixMetaDb ++ name) kkv = none) :
    (∃ bs key2,
      CreateDatabase name true w = (.ok (), wCreateDone w name kkv mkv) ∧
      fsGet (keyringPath w) (wCreateDone w name kkv mkv).files =
        some ⟨w.keyStorage.key, kvSet (prefixMetaDb ++ name) (.bytes bs) kkv⟩ ∧
      kvGet (prefixMetaDb ++ name) (kvSet (prefixMetaDb ++ name) (.bytes bs) kkv) =
        some (.bytes bs) ∧
      b64Decode bs = .ok key2 ∧ key2.length = keyLength) ∧
    (CreateDatabase name false w = (.ok (), wCreateDoneU w name mkv) ∧
      fsGet (keyringPath w) (wCreateDoneU w name mkv).files =
        some ⟨w.keyStorage.key, kkv⟩ ∧
      kvGet (prefixMetaDb ++ name) kkv = none) := by
  refine ⟨⟨b64Encode (createGenKey w), createGenKey w,
    CreateDatabase_secure_eq name w kkv mkv hkr hm hfresh hne1 hne2 hne3, ?_,
    kvGet_kvSet_self _ _ _,
    b64_roundtrip (createGenKey w) (randomBytes_lt_256 keyLength (wAdvRand w fileIdLength)),
    randomBytes_length keyLength (wAdvRand w fileIdLength)⟩,
    CreateDatabase_insec_eq name w mkv hm hfresh hne2, ?_, hnone⟩
  · show fsGet (keyringPath w)
      (fsSet (metaPath w) _ (fsSet (keyringPath w) _ (fsSet (createDbPath w name) _ w.files))) = _
    rw [fsGet_fsSet_ne _ _ _ _ (Ne.symm hne3), fsGet_fsSet_self]
  · show fsGet (keyringPath w)
      (fsSet (metaPath w) _ (fsSet (createDbPath w name) _ w.files)) = _
    rw [fsGet_fsSet_ne _ _ _ _ (Ne.symm hne3), fsGet_fsSet_ne _ _ _ _ hne1]
    exact hkr.2

/-- Witness for C7 at the concrete state `wCreateW`. -/
theorem createDatabase_secret_store_witness :
    ∃ bs key2,
      CreateDatabase "n" true wCreateW = (.ok (), wCreateDone wCreateW "n" [] []) ∧
      kvGet (prefixMetaDb ++ "n") (kvSet (prefixMetaDb ++ "n") (.bytes bs) []) =
        some (.bytes bs) ∧
      b64Decode bs = .ok key2 ∧ key2.length = keyLength ∧
      CreateDatabase "n" false wCreateW = (.ok (), wCreateDoneU wCreateW "n" []) ∧
      kvGet (prefixMetaDb ++ "n") ([] : Kv) = none := by
  obtain ⟨⟨bs, key2, hc, hk, hg, hd, hl⟩, hu, hk2, hn⟩ :=
    createDatabase_secret_store wCreateW "n" [] [] ⟨rfl, rfl⟩ ⟨rfl, rfl⟩ (by decide)
      (by decide) (by decide) (by decide) rfl
  exact ⟨bs, key2, hc, hg, hd, hl, hu, hn⟩

/-- C8: failure atomicity of `CreateDatabase`.  (a) If opening the
engine database fails (secure or unsecured), the call returns the error
with the whole state unchanged except the consumed randomness — in
particular no descriptor and no secret are written.  (b) If the
descriptor write fails after the key was stored (here: the catalog
rotation flag is up), the call returns the error with the catalog file
byte-for-byte unchanged and at most an orphaned secret in the keyring.
(c) A retry after the obstruction clears succeeds and idempotently
overwrites the orphaned secret. -/
theorem createDatabase_failure_atomicity (w : World) (name : String) (kkv mkv : Kv)
    (g : DbFile)
    (hkr : KeyringReady w kkv)
    (hrot : w.metaStorage.rotatingKey = true)
    (hmf : fsGet (metaPath w) w.files = some ⟨w.metaStorage.key, mkv⟩)
    (hfresh : fsGet (createDbPath w name) w.files = none)
    (hne1 : createDbPath w name ≠ keyringPath w)
    (hne2 : createDbPath w name ≠ metaPath w)
    (hne3 : keyringPath w ≠ metaPath w)
    (hge : g.enc ≠ createGenKey w)
    (hgeu : g.enc ≠ [])
    (hfresh2 : fsGet (createDbPath (wRetryOf w name kkv) name) (wRetryOf w name kkv).files = none)
    (hne1b : createDbPath (wRetryOf w name kkv) name ≠ keyringPath w)
    (hne2b : createDbPath (wRetryOf w name kkv) name ≠ metaPath w) :
    (CreateDatabase name true { w with files := fsSet (createDbPath w name) g w.files } =
      (.error .keyMismatch,
        { w with files := fsSet (createDbPath w name) g w.files,
                 randIdx := w.randIdx + fileIdLength + keyLength })) ∧
    (CreateDatabase name false { w with files := fsSet (createDbPath w name) g w.files } =
      (.error .keyMismatch,
        { w with files := fsSet (createDbPath w name) g w.files,
                 randIdx := w.randIdx + fileIdLength })) ∧
    (CreateDatabase name true w = (.error .dbRotating, wCreateFailed w name kkv)) ∧
    fsGet (metaPath w) (wCreateFailed w name kkv).files = some ⟨w.metaStorage.key, mkv⟩ ∧
    fsGet (keyringPath w) (wCreateFailed w name kkv).files =
      some ⟨w.keyStorage.key,
        kvSet (prefixMetaDb ++ name) (.bytes (b64Encode (createGenKey w))) kkv⟩ ∧
    (CreateDatabase name true (wRetryOf w name kkv) =
      (.ok (), wCreateDone (wRetryOf w name kkv) name
        (kvSet (prefixMetaDb ++ name) (.bytes (b64Encode (createGenKey w))) kkv) mkv)) ∧
    kvGet (prefixMetaDb ++ name)
      (kvSet (prefixMetaDb ++ name)
        (.bytes (b64Encode (createGenKey (wRetryOf w name kkv))))
        (kvSet (prefixMetaDb ++ name) (.bytes (b64Encode (createGenKey w))) kkv)) =
      some (.bytes (b64Encode (createGenKey (wRetryOf w name kkv)))) := by
  refine ⟨?_, ?_, CreateDatabase_secure_rotflag_eq name w kkv hkr hrot hfresh hne1,
    ?_, ?_, ?_, kvGet_kvSet_self _ _ _⟩
  · exact CreateDatabase_secure_openfail_eq name _ g (fsGet_fsSet_self _ _ _) hge
  · exact CreateDatabase_insec_openfail_eq name _ g (fsGet_fsSet_self _ _ _) hgeu
  · show fsGet (metaPath w)
      (fsSet (keyringPath w) _ (fsSet (createDbPath w name) _ w.files)) = _
    rw [fsGet_fsSet_ne _ _ _ _ hne3, fsGet_fsSet_ne _ _ _ _ hne2]
    exact hmf
  · show fsGet (keyringPath w)
      (fsSet (keyringPath w) _ (fsSet (createDbPath w name) _ w.files)) = _
    rw [fsGet_fsSet_self]
  · refine CreateDatabase_secure_eq name (wRetryOf w name kkv) _ mkv ⟨hkr.1, ?_⟩ ⟨rfl, ?_⟩
      hfresh2 hne1b hne2b hne3
    · show fsGet (keyringPath w)
        (fsSet (keyringPath w) _ (fsSet (createDbPath w name) _ w.files)) = _
      rw [fsGet_fsSet_self]
      rfl
    · show fsGet (metaPath w)
        (fsSet (keyringPath w) _ (fsSet (createDbPath w name) _ w.files)) = _
      rw [fsGet_fsSet_ne _ _ _ _ hne3, fsGet_fsSet_ne _ _ _ _ hne2]
      exact hmf

/-- Witness for C8 at the concrete state `wCreateFailW`. -/
theorem createDatabase_failure_atomicity_witness :
    CreateDatabase "n" true wCreateFailW =
      (.error .dbRotating, wCreateFailed wCreateFailW "n" []) ∧
    fsGet (metaPath wCreateFailW) (wCreateFailed wCreateFailW "n" []).files =
      some ⟨[1, 2, 3], []⟩ ∧
    CreateDatabase "n" true (wRetryOf wCreateFailW "n" []) =
      (.ok (), wCreateDone (wRetryOf wCreateFailW "n" []) "n"
        (kvSet (prefixMetaDb ++ "n") (.bytes (b64Encode (createGenKey wCreateFailW))) []) []) := by
  have h := createDatabase_failure_atomicity wCreateFailW "n" [] [] gBad ⟨rfl, rfl⟩ rfl
    (by decide) (by decide) (by decide) (by decide) (by decide) (by decide) (by decide)
    (by decide) (by decide) (by decide)
  exact ⟨h.2.2.1, h.2.2.2.1, h.2.2.2.2.2.1⟩

end Cachekv
